import Mathlib

/-!
# go-api-boilerplate: user service HTTP handlers and the access-token event handler

Shallow embedding of

* `cmd/user/internal/interfaces/http/handlers/user.go`
  (`BuildCommandDispatchHandler`, `BuildListUserHandler`), and
* `cmd/user/internal/application/eventhandler/when_user_access_token_was_requested.go`
  (`WhenUserAccessTokenWasRequested`).

Go `error` values are a small term language, a nil `error` is `none`.  Every
call that leaves the handler (response writes, repository calls, logging,
goroutine start, deferred calls) is recorded as an entry of a trace, in
program order.
-/

namespace GoApi

/-! ## Errors (`pkg/errors`) -/

/-- Error kinds of `pkg/errors` that the embedded handlers name. -/
inductive Kind
  | INTERNAL
  | TIMEOUT
  | NOTFOUND
  deriving DecidableEq, Repr

/-- Go `error` values.  `ext` is an error produced by a collaborator (I/O,
context, repository, command handler); `wrap` and `new` are `errors.Wrap` and
`errors.New`; the remaining constructors are package-level error values. -/
inductive GoError
  | ext (id : Nat)
  | ErrEmptyRequestBody
  | ErrInvalidURLParams
  | NoHandler
  | wrap (cause : GoError) (kind : Kind) (msg : String)
  | new (kind : Kind) (msg : String)
  deriving DecidableEq, Repr

/-- A byte string (`[]byte`). -/
abbrev Bytes := List Nat

/-- A row of `persistence.User`; only its identity matters here. -/
structure User where
  id : Nat
  deriving DecidableEq, Repr

/-- The anonymous struct `paginatedList` of `BuildListUserHandler`.  `Users`
is `none` while the slice field is still unassigned (a nil slice). -/
structure PaginatedList where
  Users : Option (List User)
  Page : Int
  Limit : Int
  Total : Int
  deriving DecidableEq, Repr

/-- The value handed to `response.MustJSON`. -/
inductive Payload
  | null
  | list (p : PaginatedList)
  deriving DecidableEq, Repr

/-- A command built by `user.NewCommandFromPayload`. -/
structure Command where
  name : String
  body : Bytes
  deriving DecidableEq, Repr

/-- Calls that leave a handler, in program order. -/
inductive Effect
  | MustJSONError (err : GoError)
  | WriteHeader (code : Nat)
  | MustJSON (payload : Payload)
  | goPublish (c : Command)
  | closeOut
  | BodyClose
  | Count
  | FindAll (limit offset : Int)
  deriving DecidableEq, Repr

/-- The constant `http.StatusCreated`. -/
def StatusCreated : Nat := 201

/-- The constant `http.StatusOK`. -/
def StatusOK : Nat := 200

/-! ## `BuildCommandDispatchHandler` -/

/-- What the `select` of lines 59-72 observed: the context's `Done` channel
(with `r.Context().Err()`), or a value received from `out`. -/
inductive SelectOutcome
  | ctxDone (err : GoError)
  | recv (e : Option GoError)
  deriving DecidableEq, Repr

/-- Lines 59-75: the branch of the `select` that was taken and, when it does
not return, the success response after it. -/
def selectBranch : SelectOutcome → List Effect
  | .ctxDone err => [.MustJSONError (.wrap err .TIMEOUT "Request timeout")]
  | .recv (some e) => [.MustJSONError (.wrap e .INTERNAL "Command handler error")]
  | .recv none => [.WriteHeader StatusCreated, .MustJSON .null]

/-- The parts of `*http.Request` and of the collaborators that
`BuildCommandDispatchHandler` reads. -/
structure DispatchRequest where
  /-- Whether `r.Body == nil` -/
  bodyNil : Bool
  /-- Result of `context.Parameters(r.Context())` with `params.Value("command")`; `none` is `!ok` -/
  params : Option String
  /-- Result of `ioutil.ReadAll(r.Body)` -/
  readAll : Except GoError Bytes
  /-- The function `user.NewCommandFromPayload` -/
  NewCommandFromPayload : String → Bytes → Except GoError Command
  /-- The function `errors.ErrorMessage` -/
  ErrorMessage : GoError → String

/-- The handler function of `BuildCommandDispatchHandler`, lines 21-76.  The
outcome of the `select` is an input; the trace lists the calls in order,
the deferred ones (`close(out)`, then `r.Body.Close()`) last. -/
def BuildCommandDispatchHandler (r : DispatchRequest) (sel : SelectOutcome) : List Effect :=
  if r.bodyNil then
    [.MustJSONError .ErrEmptyRequestBody]
  else
    match r.params with
    | none => [.MustJSONError .ErrInvalidURLParams]
    | some name =>
      match r.readAll with
      | .error e =>
        [.MustJSONError (.wrap e .INTERNAL "Invalid request body"), .BodyClose]
      | .ok body =>
        match r.NewCommandFromPayload name body with
        | .error e =>
          [.MustJSONError (.wrap e .INTERNAL (r.ErrorMessage e)), .BodyClose]
        | .ok c =>
          [.goPublish c] ++ selectBranch sel ++ [.closeOut, .BodyClose]

/-- The request got as far as line 52 with command `c`. -/
def commandBuilt (r : DispatchRequest) (c : Command) : Prop :=
  r.bodyNil = false ∧
    ∃ name body, r.params = some name ∧ r.readAll = .ok body ∧
      r.NewCommandFromPayload name body = .ok c

/-- The writes to the `http.ResponseWriter` in a trace. -/
def responseWrites (t : List Effect) : List Effect :=
  t.filter fun
    | .MustJSONError _ => true
    | .WriteHeader _ => true
    | .MustJSON _ => true
    | _ => false

/-- Number of error responses (`response.MustJSONError`) in a trace. -/
def errorResponses (t : List Effect) : Nat :=
  t.countP fun
    | .MustJSONError _ => true
    | _ => false

/-- Number of response bodies written with `response.MustJSON` in a trace. -/
def jsonResponses (t : List Effect) : Nat :=
  t.countP fun
    | .MustJSON _ => true
    | _ => false

/-- The success response of the dispatch handler: status 201, then a `nil` body. -/
def successResponse : List Effect := [.WriteHeader StatusCreated, .MustJSON .null]

/-- A sample request whose command is built. -/
def sampleRequest : DispatchRequest where
  bodyNil := false
  params := some "register-user-with-email"
  readAll := .ok [123, 125]
  NewCommandFromPayload := fun name body => .ok ⟨name, body⟩
  ErrorMessage := fun _ => "Internal Server Error"

/-- The command of `sampleRequest`. -/
def sampleCommand : Command := ⟨"register-user-with-email", [123, 125]⟩

/-! ## The originator, the publishing goroutine and the command handler

Lines 52-75 run concurrently with the goroutine of line 55 and with whatever
the bus starts.  The three share the channel `out` and the request context;
the interleavings are the runs of `step`. -/

/-- A Go channel of `error` values: queued values, capacity, closed flag. -/
structure Chan where
  buf : List (Option GoError)
  cap : Nat
  closed : Bool
  deriving DecidableEq, Repr

/-- Outcome of a channel send. -/
inductive SendResult
  | sent (c : Chan)
  | blocked
  | panicked
  deriving DecidableEq, Repr

/-- Go's `ch <- v`: a send on a closed channel panics, a send on a channel with
room enqueues, a send on a full channel blocks. -/
def Chan.send (c : Chan) (v : Option GoError) : SendResult :=
  if c.closed then .panicked
  else if c.buf.length < c.cap then .sent { c with buf := c.buf ++ [v] }
  else .blocked

/-- Go's `<-ch`: the oldest queued value; on an empty channel the zero value
(nil) when closed, and `none` (the receive blocks) when open. -/
def Chan.recv (c : Chan) : Option (Option GoError × Chan) :=
  match c.buf with
  | v :: rest => some (v, { c with buf := rest })
  | [] => if c.closed then some (none, c) else none

/-- Go's `close(ch)`; `none` is the panic of closing a closed channel. -/
def Chan.close (c : Chan) : Option Chan :=
  if c.closed then none else some { c with closed := true }

/-- Where the originator (the goroutine serving the request) stands. -/
inductive OrigPc
  | atGo
  | atSelect
  | atReturn
  | done
  | panicked
  deriving DecidableEq, Repr

/-- Life cycle of a spawned goroutine; a running command handler carries the
value it is going to report. -/
inductive Task
  | notStarted
  | ready
  | running (result : Option GoError)
  | finished
  | panicked
  deriving DecidableEq, Repr

/-- What one call `cb.Publish(r.Context(), c, out)` does with the result
channel: it sends an error on it before returning, or it starts the command
handler on a goroutine of its own, which sends its result on completion, or
it never touches the channel. -/
inductive PublishAction
  | deliver (e : GoError)
  | startHandler (result : Option GoError)
  | dropped
  deriving DecidableEq, Repr

/-- The `commandbus.CommandBus` handed to `BuildCommandDispatchHandler`, as
what its `Publish` does with each command. -/
abbrev CommandBus := Command → PublishAction

/-- A command handler, reduced to the value it reports on completion. -/
abbrev CommandHandler := Command → Option GoError

/-- The registry of command handlers, by command name. -/
abbrev Registry := String → Option CommandHandler

/-- Modelled from the spec: the command bus's `Publish` (package
`pkg/commandbus`, called at line 56, not among the listed sources), after
section 4.2 steps 1, 2 and 4: with no handler registered for the command's
type identifier NoHandler is delivered on the result channel by the caller of
`Publish` and no goroutine is started; otherwise the handler runs on a
goroutine of its own and sends exactly one value on the result channel. -/
def Publish (reg : Registry) : CommandBus := fun c =>
  match reg c.name with
  | none => .deliver .NoHandler
  | some h => .startHandler (h c)

/-- State of one dispatch after line 53: the channel `out`, the context's
error once `Done` is closed, the three goroutines, the originator's calls so
far, what its `select` observed, and the goroutines started by the handler
function and by the bus. -/
structure State where
  out : Chan
  ctxErr : Option GoError
  orig : OrigPc
  pub : Task
  hdl : Task
  trace : List Effect
  observed : List SelectOutcome
  spawnedByHandler : Nat
  spawnedByBus : Nat
  deriving DecidableEq, Repr

/-- State after `out := make(chan error, 1)` and `defer close(out)`. -/
def State.init : State where
  out := { buf := [], cap := 1, closed := false }
  ctxErr := none
  orig := .atGo
  pub := .notStarted
  hdl := .notStarted
  trace := []
  observed := []
  spawnedByHandler := 0
  spawnedByBus := 0

/-- The atomic steps of a dispatch. -/
inductive Step
  | cancel (err : GoError)
  | origGo
  | origTimeout
  | origRecv
  | origReturn
  | pubRun
  | hdlSend
  deriving DecidableEq, Repr

/-- One step; `none` when the step is not enabled (wrong place, or blocked).

* `cancel`: the request context is cancelled or its deadline passes;
* `origGo`: line 55, `go func() { cb.Publish(r.Context(), c, out) }()`;
* `origTimeout`: line 60, the `select` takes `<-r.Context().Done()`;
* `origRecv`: line 65, the `select` takes `e = <-out`;
* `origReturn`: the function returns and runs `close(out)`, `r.Body.Close()`;
* `pubRun`: the goroutine of line 55 runs `cb.Publish`;
* `hdlSend`: the command handler completes and sends its result on `out`. -/
def step (bus : CommandBus) (c : Command) (s : State) : Step → Option State
  | .cancel err =>
    match s.ctxErr with
    | none => some { s with ctxErr := some err }
    | some _ => none
  | .origGo =>
    match s.orig with
    | .atGo =>
      some { s with
        orig := .atSelect, pub := .ready, trace := s.trace ++ [.goPublish c],
        spawnedByHandler := s.spawnedByHandler + 1 }
    | _ => none
  | .origTimeout =>
    match s.orig, s.ctxErr with
    | .atSelect, some err =>
      some { s with
        orig := .atReturn, observed := s.observed ++ [.ctxDone err],
        trace := s.trace ++ selectBranch (.ctxDone err) }
    | _, _ => none
  | .origRecv =>
    match s.orig, s.out.recv with
    | .atSelect, some (v, out) =>
      some { s with
        out := out, orig := .atReturn, observed := s.observed ++ [.recv v],
        trace := s.trace ++ selectBranch (.recv v) }
    | _, _ => none
  | .origReturn =>
    match s.orig with
    | .atReturn =>
      match s.out.close with
      | some out =>
        some { s with out := out, orig := .done, trace := s.trace ++ [.closeOut, .BodyClose] }
      | none => some { s with orig := .panicked, trace := s.trace ++ [.closeOut] }
    | _ => none
  | .pubRun =>
    match s.pub with
    | .ready =>
      match bus c with
      | .deliver e =>
        match s.out.send (some e) with
        | .sent out => some { s with out := out, pub := .finished }
        | .blocked => none
        | .panicked => some { s with pub := .panicked }
      | .startHandler result =>
        some { s with
          pub := .finished, hdl := .running result, spawnedByBus := s.spawnedByBus + 1 }
      | .dropped => some { s with pub := .finished }
    | _ => none
  | .hdlSend =>
    match s.hdl with
    | .running result =>
      match s.out.send result with
      | .sent out => some { s with out := out, hdl := .finished }
      | .blocked => none
      | .panicked => some { s with hdl := .panicked }
    | _ => none

/-- A run: the steps taken one after the other, `none` if one is not enabled. -/
def run (bus : CommandBus) (c : Command) : State → List Step → Option State
  | s, [] => some s
  | s, st :: rest =>
    match step bus c s st with
    | none => none
    | some s' => run bus c s' rest

/-- The context error `context.DeadlineExceeded`. -/
def DeadlineExceeded : GoError := .ext 0

/-- The context error `context.Canceled`. -/
def Canceled : GoError := .ext 1

/-- A registry with no handler at all. -/
def emptyRegistry : Registry := fun _ => none

/-- A bus that starts, for every command, a handler reporting `result`. -/
def handlerBus (result : Option GoError) : CommandBus := fun _ => .startHandler result

/-- The originator times out and returns while the handler is still running. -/
def timedOutRun : List Step :=
  [.origGo, .pubRun, .cancel DeadlineExceeded, .origTimeout, .origReturn]

/-- The handler finishes after the originator timed out and returned. -/
def lateSendRun : List Step := timedOutRun ++ [.hdlSend]

/-- The handler finishes after the timeout branch but before the return. -/
def raceSendRun : List Step :=
  [.origGo, .pubRun, .cancel DeadlineExceeded, .origTimeout, .hdlSend, .origReturn]

/-- The handler reports success in time. -/
def successRun : List Step :=
  [.origGo, .pubRun, .hdlSend, .origRecv, .origReturn]

/-- No handler registered, the context is cancelled first. -/
def noHandlerTimeoutRun : List Step :=
  [.origGo, .cancel Canceled, .origTimeout, .origReturn]

/-- No handler registered, NoHandler is received. -/
def noHandlerRecvRun : List Step :=
  [.origGo, .pubRun, .origRecv, .origReturn]

/-- State in which `timedOutRun` ends for a handler reporting nil. -/
def timedOutState : State where
  out := { buf := [], cap := 1, closed := true }
  ctxErr := some DeadlineExceeded
  orig := .done
  pub := .finished
  hdl := .running none
  trace := [.goPublish sampleCommand,
    .MustJSONError (.wrap DeadlineExceeded .TIMEOUT "Request timeout"), .closeOut, .BodyClose]
  observed := [.ctxDone DeadlineExceeded]
  spawnedByHandler := 1
  spawnedByBus := 1

/-- State in which `successRun` ends for a handler reporting nil. -/
def successState : State where
  out := { buf := [], cap := 1, closed := true }
  ctxErr := none
  orig := .done
  pub := .finished
  hdl := .finished
  trace := [.goPublish sampleCommand, .WriteHeader StatusCreated, .MustJSON .null,
    .closeOut, .BodyClose]
  observed := [.recv none]
  spawnedByHandler := 1
  spawnedByBus := 1

/-- State in which `noHandlerRecvRun` ends. -/
def noHandlerRecvState : State where
  out := { buf := [], cap := 1, closed := true }
  ctxErr := none
  orig := .done
  pub := .finished
  hdl := .notStarted
  trace := [.goPublish sampleCommand,
    .MustJSONError (.wrap .NoHandler .INTERNAL "Command handler error"), .closeOut, .BodyClose]
  observed := [.recv (some .NoHandler)]
  spawnedByHandler := 1
  spawnedByBus := 0

/-- State in which `noHandlerTimeoutRun` ends. -/
def noHandlerTimeoutState : State where
  out := { buf := [], cap := 1, closed := true }
  ctxErr := some Canceled
  orig := .done
  pub := .ready
  hdl := .notStarted
  trace := [.goPublish sampleCommand,
    .MustJSONError (.wrap Canceled .TIMEOUT "Request timeout"), .closeOut, .BodyClose]
  observed := [.ctxDone Canceled]
  spawnedByHandler := 1
  spawnedByBus := 0

/-- What holds of every reachable state of a dispatch of command `c`: the
originator's trace and observations are determined by where it stands, and
`out` is closed exactly once the originator has returned. -/
def Inv (c : Command) (s : State) : Prop :=
  s.out.cap = 1 ∧ s.orig ≠ .panicked ∧
  (s.orig = .atGo →
    s.trace = [] ∧ s.observed = [] ∧ s.spawnedByHandler = 0 ∧ s.out.closed = false) ∧
  (s.orig = .atSelect →
    s.trace = [.goPublish c] ∧ s.observed = [] ∧ s.spawnedByHandler = 1 ∧
      s.out.closed = false) ∧
  (s.orig = .atReturn →
    ∃ sel, s.observed = [sel] ∧ s.trace = [.goPublish c] ++ selectBranch sel ∧
      s.spawnedByHandler = 1 ∧ s.out.closed = false) ∧
  (s.orig = .done →
    ∃ sel, s.observed = [sel] ∧
      s.trace = [.goPublish c] ++ selectBranch sel ++ [.closeOut, .BodyClose] ∧
      s.spawnedByHandler = 1 ∧ s.out.closed = true)

/-- What holds in addition when no handler is registered for the command:
the bus starts nothing, and only NoHandler travels through `out`. -/
def NoHandlerInv (s : State) : Prop :=
  s.hdl = .notStarted ∧ s.spawnedByBus = 0 ∧
  (∀ v ∈ s.out.buf, v = some GoError.NoHandler) ∧
  (∀ v, SelectOutcome.recv v ∈ s.observed → v = some GoError.NoHandler)

/-! ## `WhenUserAccessTokenWasRequested` -/

/-- A value passed to Go's `panic`. -/
abbrev PanicValue := String

/-- How a call ends: it returns a value, or it panics. -/
inductive Outcome (α : Type)
  | ret (a : α)
  | panic (v : PanicValue)

/-- The event struct `user.WasRegisteredWithEmail`, reduced to the field read here. -/
structure WasRegisteredWithEmail where
  Email : String
  deriving DecidableEq, Repr

/-- An `oauth2.Token`. -/
structure Token where
  AccessToken : String
  deriving DecidableEq, Repr

/-- A `domain.Event`, reduced to its payload. -/
structure Event where
  Payload : Bytes
  deriving DecidableEq, Repr

/-- The collaborators of the event handler.  Each call may return or panic. -/
structure Collaborators where
  /-- Call `GetLogger(ctx)` -/
  GetLogger : Outcome Unit
  /-- Call `logger.Info(ctx, "[EventHandler] %s\n", payload)` -/
  Info : Bytes → Outcome Unit
  /-- Call `json.Unmarshal(payload, &e)`: the decoded struct or the error -/
  Unmarshal : Bytes → Outcome (Except GoError WasRegisteredWithEmail)
  /-- Call `logger.Error(ctx, "[EventHandler] Error: %v\n", err)` -/
  Error : GoError → Outcome Unit
  /-- Call `config.PasswordCredentialsToken(ctx, email, secretKey)` -/
  PasswordCredentialsToken : String → String → Outcome (Except GoError Token)
  /-- Call `json.Marshal(token)` -/
  Marshal : Token → Outcome (Except GoError Bytes)
  /-- Call `log.Printf("[EventHandler] Access Token: %s\n", string(b))` -/
  Printf : Bytes → Outcome Unit

/-- Calls made by the event handler, recorded when the call is made. -/
inductive Ev
  | Info (payload : Bytes)
  | Unmarshal (payload : Bytes)
  | Error (err : GoError)
  | PasswordCredentialsToken (email secretKey : String)
  | Marshal (token : Token)
  | AccessToken (b : Bytes)
  | Recovered (v : PanicValue)
  deriving DecidableEq, Repr

/-- A function body that has run: the calls it made and the panic that ended
it, if one did. -/
structure BodyRun where
  trace : List Ev
  panic : Option PanicValue
  deriving DecidableEq, Repr

/-- After a call to `logger.Error` the body returns; the call may panic. -/
def logErrorAndReturn (k : Collaborators) (t : List Ev) (err : GoError) : BodyRun :=
  match k.Error err with
  | .ret _ => ⟨t ++ [.Error err], none⟩
  | .panic v => ⟨t ++ [.Error err], some v⟩

/-- Lines 22-46, the body of the event handler below its `defer`. -/
def handlerBody (k : Collaborators) (secretKey : String) (event : Event) : BodyRun :=
  match k.GetLogger with
  | .panic v => ⟨[], some v⟩
  | .ret _ =>
    match k.Info event.Payload with
    | .panic v => ⟨[.Info event.Payload], some v⟩
    | .ret _ =>
      match k.Unmarshal event.Payload with
      | .panic v => ⟨[.Info event.Payload, .Unmarshal event.Payload], some v⟩
      | .ret (.error err) =>
        logErrorAndReturn k [.Info event.Payload, .Unmarshal event.Payload] err
      | .ret (.ok e) =>
        match k.PasswordCredentialsToken e.Email secretKey with
        | .panic v =>
          ⟨[.Info event.Payload, .Unmarshal event.Payload,
            .PasswordCredentialsToken e.Email secretKey], some v⟩
        | .ret (.error err) =>
          logErrorAndReturn k [.Info event.Payload, .Unmarshal event.Payload,
            .PasswordCredentialsToken e.Email secretKey] err
        | .ret (.ok token) =>
          match k.Marshal token with
          | .panic v =>
            ⟨[.Info event.Payload, .Unmarshal event.Payload,
              .PasswordCredentialsToken e.Email secretKey, .Marshal token], some v⟩
          | .ret (.error err) =>
            logErrorAndReturn k [.Info event.Payload, .Unmarshal event.Payload,
              .PasswordCredentialsToken e.Email secretKey, .Marshal token] err
          | .ret (.ok b) =>
            match k.Printf b with
            | .panic v =>
              ⟨[.Info event.Payload, .Unmarshal event.Payload,
                .PasswordCredentialsToken e.Email secretKey, .Marshal token,
                .AccessToken b], some v⟩
            | .ret _ =>
              ⟨[.Info event.Payload, .Unmarshal event.Payload,
                .PasswordCredentialsToken e.Email secretKey, .Marshal token,
                .AccessToken b], none⟩

/-- Modelled from the spec: `recoverEventHandler` (package `eventhandler`,
deferred at line 20, not among the listed sources), after section 4.3 step 3:
a panicking handler logs and returns.  Given the panic in flight, if any, it
yields what it logs and the panic that is still in flight afterwards. -/
def recoverEventHandler (p : Option PanicValue) : BodyRun :=
  match p with
  | none => ⟨[], none⟩
  | some v => ⟨[.Recovered v], none⟩

/-- A finished invocation of the handler.  The Go function has no result
parameters, so all its invoker can see is whether a panic propagates. -/
structure Invocation where
  trace : List Ev
  propagated : Option PanicValue
  deriving DecidableEq, Repr

/-- The function returned by `WhenUserAccessTokenWasRequested(config, secretKey)`,
lines 17-47: the body runs, then the deferred `recoverEventHandler()`. -/
def WhenUserAccessTokenWasRequested (k : Collaborators) (secretKey : String) (event : Event) :
    Invocation :=
  let body := handlerBody k secretKey event
  let deferred := recoverEventHandler body.panic
  ⟨body.trace ++ deferred.trace, deferred.panic⟩

/-- Number of calls to `logger.Error` in a trace. -/
def errorLogs (t : List Ev) : Nat :=
  t.countP fun
    | .Error _ => true
    | _ => false

/-- Number of requests to the identity provider in a trace. -/
def tokenRequests (t : List Ev) : Nat :=
  t.countP fun
    | .PasswordCredentialsToken _ _ => true
    | _ => false

/-- Number of access tokens emitted (line 46) in a trace. -/
def tokensEmitted (t : List Ev) : Nat :=
  t.countP fun
    | .AccessToken _ => true
    | _ => false

/-- Collaborators that never panic: payloads of even length decode, with the
given outcomes of the token request and of the encoding. -/
def sampleCollaborators (tokenOk marshalOk : Bool) : Collaborators where
  GetLogger := .ret ()
  Info := fun _ => .ret ()
  Unmarshal := fun p =>
    if p.length % 2 = 0 then .ret (.ok ⟨"user@example.com"⟩) else .ret (.error (.ext 10))
  Error := fun _ => .ret ()
  PasswordCredentialsToken := fun _ _ =>
    if tokenOk then .ret (.ok ⟨"token"⟩) else .ret (.error (.ext 11))
  Marshal := fun _ => if marshalOk then .ret (.ok [34, 34]) else .ret (.error (.ext 12))
  Printf := fun _ => .ret ()

/-- Collaborators whose logger panics on `Info`. -/
def panickingCollaborators : Collaborators :=
  { sampleCollaborators true true with Info := fun _ => .panic "nil logger" }

/-! ## `BuildListUserHandler` -/

/-- The two errors of `strconv`: `ErrSyntax` and `ErrRange`. -/
inductive NumError
  | errSyn
  | errRange
  deriving DecidableEq, Repr

/-- Largest `uint64`. -/
def maxUint64 : Nat := 2 ^ 64 - 1

/-- The digit loop of `strconv.ParseUint(s, 10, 32)` over the remaining bytes,
with `n` accumulated so far in `uint64` arithmetic.  A byte that is not a
decimal digit is a syntax error (a letter yields a digit value of at least 10,
which is not below the base); `n >= cutoff` or a sum above `maxVal` is a
range error, which returns `maxVal` at once. -/
def ParseUintLoop (cutoff maxVal : Nat) : List Char → Nat → Nat × Option NumError
  | [], n => (n, none)
  | ch :: rest, n =>
    if 48 ≤ ch.toNat ∧ ch.toNat ≤ 57 then
      if n ≥ cutoff then (maxVal, some .errRange)
      else
        let n10 := (n * 10) % 2 ^ 64
        let n1 := (n10 + (ch.toNat - 48)) % 2 ^ 64
        if n1 < n10 ∨ n1 > maxVal then (maxVal, some .errRange)
        else ParseUintLoop cutoff maxVal rest n1
    else (0, some .errSyn)

/-- Go's `strconv.ParseUint(s, 10, 32)` on the bytes of `s`. -/
def ParseUint32 (s : List Char) : Nat × Option NumError :=
  match s with
  | [] => (0, some .errSyn)
  | _ => ParseUintLoop (maxUint64 / 10 + 1) (2 ^ 32 - 1) s 0

/-- Go's `strconv.ParseInt(s, 10, 32)`: the value and the error.  The sign is
picked off, the rest goes through `ParseUint`; a syntax error gives 0, a
magnitude beyond the `int32` range gives the nearest `int32` and a range
error. -/
def ParseInt32 (s : String) : Int × Option NumError :=
  match s.toList with
  | [] => (0, some .errSyn)
  | c0 :: tl =>
    let neg := c0 = '-'
    let digits := if c0 = '+' ∨ c0 = '-' then tl else c0 :: tl
    match ParseUint32 digits with
    | (_, some .errSyn) => (0, some .errSyn)
    | (un, _) =>
      let cutoff : Nat := 2 ^ 31
      if ¬ neg ∧ un ≥ cutoff then ((cutoff : Int) - 1, some .errRange)
      else if neg ∧ un > cutoff then (-(cutoff : Int), some .errRange)
      else (if neg then -(un : Int) else (un : Int), none)

/-- Go's conversion `float64(n)` of an `int64`, as the integer the resulting
double denotes: integers below `2^53` in magnitude are kept, larger ones are
rounded to 53 significant bits, ties to even. -/
def float64OfInt (n : Int) : Int :=
  let a := n.natAbs
  if a < 2 ^ 53 then n
  else
    let k := Nat.log2 a - 52
    let q := a / 2 ^ k
    let r := a % 2 ^ k
    let q1 := if r > 2 ^ (k - 1) ∨ (r = 2 ^ (k - 1) ∧ q % 2 = 1) then q + 1 else q
    n.sign * ((q1 * 2 ^ k : Nat) : Int)

/-- Two's-complement reduction of an integer to `int32`. -/
def wrap32 (n : Int) : Int := (n + 2 ^ 31) % 2 ^ 32 - 2 ^ 31

/-- Go's conversion `int32(f)` of an integer-valued `float64`.  Values in the
`int32` range convert exactly; the value for others is left to the
implementation by the language and taken here as the two's-complement
reduction. -/
def int32OfFloat (f : Int) : Int := wrap32 f

/-- Whether an integer is an `int32`. -/
def isInt32 (n : Int) : Prop := -(2 ^ 31) ≤ n ∧ n ≤ 2 ^ 31 - 1

instance (n : Int) : Decidable (isInt32 n) := by
  unfold isInt32
  infer_instance

/-- Line 151: `int32(math.Max(float64(pageInt), 1))` for the query value `page`. -/
def effectivePage (page : String) : Int :=
  int32OfFloat (max (float64OfInt (ParseInt32 page).1) 1)

/-- Line 152: `int32(math.Max(float64(limitInt), 20))` for the query value `limit`. -/
def effectiveLimit (limit : String) : Int :=
  int32OfFloat (max (float64OfInt (ParseInt32 limit).1) 20)

/-- Line 162: `(page * limit) - limit` in `int32` arithmetic. -/
def listOffset (page limit : Int) : Int := wrap32 (wrap32 (page * limit) - limit)

/-- The parts of `*http.Request` that `BuildListUserHandler` reads. -/
structure ListRequest where
  /-- Whether `r.Body == nil` -/
  bodyNil : Bool
  /-- Value of `r.URL.Query().Get("page")`, empty when the parameter is missing -/
  page : String
  /-- Value of `r.URL.Query().Get("limit")`, empty when the parameter is missing -/
  limit : String

/-- The methods of `persistence.UserRepository` that the list handler calls. -/
structure UserRepository where
  /-- Result of `repository.Count(ctx)` -/
  Count : Except GoError Int
  /-- Result of `repository.FindAll(ctx, limit, offset)` -/
  FindAll : Int → Int → Except GoError (List User)

/-- The text `http.StatusText(http.StatusInternalServerError)`. -/
def StatusTextInternalServerError : String := "Internal Server Error"

/-- The handler function of `BuildListUserHandler`, lines 141-191. -/
def BuildListUserHandler (repository : UserRepository) (r : ListRequest) : List Effect :=
  if r.bodyNil then
    [.MustJSONError .ErrEmptyRequestBody]
  else
    let page := effectivePage r.page
    let limit := effectiveLimit r.limit
    match repository.Count with
    | .error _ =>
      [.Count, .MustJSONError (.new .INTERNAL StatusTextInternalServerError)]
    | .ok totalUsers =>
      let offset := listOffset page limit
      let paginatedList : PaginatedList :=
        { Users := none, Page := page, Limit := limit, Total := totalUsers }
      if totalUsers < 1 ∨ offset > wrap32 (totalUsers - 1) then
        [.Count, .WriteHeader StatusOK, .MustJSON (.list paginatedList)]
      else
        match repository.FindAll limit offset with
        | .error _ =>
          [.Count, .FindAll limit offset,
            .MustJSONError (.new .INTERNAL StatusTextInternalServerError)]
        | .ok users =>
          [.Count, .FindAll limit offset, .WriteHeader StatusOK,
            .MustJSON (.list { paginatedList with Users := some users })]

/-- The calls to `repository.FindAll` in a trace, as (limit, offset). -/
def findAllCalls (t : List Effect) : List (Int × Int) :=
  t.filterMap fun
    | .FindAll limit offset => some (limit, offset)
    | _ => none

/-- The paginated lists written with `response.MustJSON` in a trace. -/
def listsWritten (t : List Effect) : List PaginatedList :=
  t.filterMap fun
    | .MustJSON (.list p) => some p
    | _ => none

/-- A repository holding `total` users, whose `FindAll` returns one user. -/
def sampleRepository (total : Int) : UserRepository where
  Count := .ok total
  FindAll := fun _ _ => .ok [⟨1⟩]

/-- A request for the last representable page with the default limit. -/
def overflowRequest : ListRequest where
  bodyNil := false
  page := "2147483647"
  limit := ""

/-- Whether a byte is a decimal digit. -/
def isDecimalDigit (ch : Char) : Bool := decide (48 ≤ ch.toNat ∧ ch.toNat ≤ 57)

/-- Whether a query value is a well-formed base-10 integer: an optional sign
followed by one or more decimal digits.  A value that is neither missing
(empty) nor well-formed is malformed. -/
def wellFormedDecimal (s : String) : Bool :=
  match s.toList with
  | [] => false
  | c0 :: tl =>
    let digits := if c0 = '+' ∨ c0 = '-' then tl else c0 :: tl
    !digits.isEmpty && digits.all isDecimalDigit

/-- A request for a page past the last user whose exact offset is `2^32`. -/
def pastLastPageRequest : ListRequest where
  bodyNil := false
  page := "65537"
  limit := "65536"


/-! # Theorems -/

theorem sampleRequest_built : commandBuilt sampleRequest sampleCommand :=
  ⟨rfl, "register-user-with-email", [123, 125], rfl, rfl, rfl⟩

theorem dispatch_of_built {r : DispatchRequest} {c : Command} (h : commandBuilt r c)
    (sel : SelectOutcome) :
    BuildCommandDispatchHandler r sel
      = [.goPublish c] ++ selectBranch sel ++ [.closeOut, .BodyClose] := by
  obtain ⟨hb, name, body, hp, hr, hc⟩ := h
  simp [BuildCommandDispatchHandler, hb, hp, hr, hc]

/-- C1: when the command was built and the receive branch of the `select`
delivers `v`, the response is the success response (201 Created, nil body)
exactly when `v` is nil; for a non-nil `v` the only response write is
the error response wrapping `v` itself with kind INTERNAL and message
"Command handler error", and no success response is written. -/
theorem C1_receive_branch (r : DispatchRequest) (c : Command) (v : Option GoError)
    (h : commandBuilt r c) :
    (responseWrites (BuildCommandDispatchHandler r (.recv v)) = successResponse ↔ v = none) ∧
    (∀ e, v = some e →
      responseWrites (BuildCommandDispatchHandler r (.recv v))
          = [.MustJSONError (.wrap e .INTERNAL "Command handler error")] ∧
        jsonResponses (BuildCommandDispatchHandler r (.recv v)) = 0 ∧
        Effect.WriteHeader StatusCreated ∉ BuildCommandDispatchHandler r (.recv v)) := by
  rw [dispatch_of_built h]
  cases v with
  | none => simp [selectBranch, responseWrites, successResponse]
  | some e =>
    simp [selectBranch, responseWrites, successResponse, jsonResponses]

theorem C1_receive_branch_witness :
    commandBuilt sampleRequest sampleCommand ∧
    (responseWrites (BuildCommandDispatchHandler sampleRequest (.recv none))
        = successResponse ↔ (none : Option GoError) = none) ∧
    responseWrites (BuildCommandDispatchHandler sampleRequest (.recv (some (.ext 7))))
      = [.MustJSONError (.wrap (.ext 7) .INTERNAL "Command handler error")] :=
  ⟨sampleRequest_built,
    (C1_receive_branch sampleRequest sampleCommand none sampleRequest_built).1,
    ((C1_receive_branch sampleRequest sampleCommand (some (.ext 7)) sampleRequest_built).2
      (.ext 7) rfl).1⟩

/-- C2: when the command was built and the cancellation branch of the `select`
is taken with context error `err`, the only response write is the error
response of kind TIMEOUT wrapping `err`; nothing but the deferred calls
follows it, and no success (201) response is written. -/
theorem C2_timeout_branch (r : DispatchRequest) (c : Command) (err : GoError)
    (h : commandBuilt r c) :
    BuildCommandDispatchHandler r (.ctxDone err)
      = [.goPublish c, .MustJSONError (.wrap err .TIMEOUT "Request timeout"),
          .closeOut, .BodyClose] ∧
    responseWrites (BuildCommandDispatchHandler r (.ctxDone err))
      = [.MustJSONError (.wrap err .TIMEOUT "Request timeout")] ∧
    jsonResponses (BuildCommandDispatchHandler r (.ctxDone err)) = 0 ∧
    Effect.WriteHeader StatusCreated ∉ BuildCommandDispatchHandler r (.ctxDone err) := by
  rw [dispatch_of_built h]
  simp [selectBranch, responseWrites, jsonResponses]

theorem C2_timeout_branch_witness :
    commandBuilt sampleRequest sampleCommand ∧
    responseWrites (BuildCommandDispatchHandler sampleRequest (.ctxDone (.ext 1)))
      = [.MustJSONError (.wrap (.ext 1) .TIMEOUT "Request timeout")] :=
  ⟨sampleRequest_built,
    (C2_timeout_branch sampleRequest sampleCommand (.ext 1) sampleRequest_built).2.1⟩


theorem Chan.send_sent {c c' : Chan} {v : Option GoError} (h : c.send v = .sent c') :
    c'.cap = c.cap ∧ c'.closed = c.closed ∧ c.closed = false ∧ c'.buf = c.buf ++ [v] := by
  unfold Chan.send at h
  split at h
  · simp at h
  · split at h
    · simp only [SendResult.sent.injEq] at h
      subst h
      simp_all
    · simp at h

theorem Chan.send_panicked {c : Chan} {v : Option GoError} :
    c.send v = .panicked ↔ c.closed = true := by
  unfold Chan.send
  split
  · simp_all
  · split <;> simp_all

theorem Chan.recv_some {c c' : Chan} {v : Option GoError} (h : c.recv = some (v, c')) :
    c'.cap = c.cap ∧ c'.closed = c.closed ∧ (c.closed = false → c.buf = v :: c'.buf) := by
  unfold Chan.recv at h
  split at h
  · simp only [Option.some.injEq, Prod.mk.injEq] at h
    obtain ⟨h1, h2⟩ := h
    subst h1 h2
    simp_all
  · split at h
    · simp only [Option.some.injEq, Prod.mk.injEq] at h
      obtain ⟨_, h2⟩ := h
      subst h2
      simp_all
    · simp at h

theorem Chan.close_some {c c' : Chan} (h : c.close = some c') :
    c'.cap = c.cap ∧ c'.closed = true ∧ c'.buf = c.buf := by
  unfold Chan.close at h
  split at h
  · simp at h
  · simp only [Option.some.injEq] at h
    subst h
    simp

theorem Chan.close_none {c : Chan} : c.close = none ↔ c.closed = true := by
  unfold Chan.close
  split <;> simp_all

theorem Inv_init (c : Command) : Inv c .init := by
  simp [Inv, State.init]

theorem Inv_step {bus : CommandBus} {c : Command} {s s' : State} {st : Step}
    (hI : Inv c s) (h : step bus c s st = some s') : Inv c s' := by
  cases st <;> simp only [step] at h <;> split at h <;>
    (try simp only [Option.some.injEq, reduceCtorEq] at h)
  all_goals try (subst h; simp_all [Inv]; done)
  · -- origRecv
    rename_i v out hO heq
    obtain ⟨h1, h2, -⟩ := Chan.recv_some heq
    subst h
    simp_all [Inv]
  · -- origReturn
    rename_i hO
    split at h
    · rename_i out heq
      obtain ⟨h1, h2, -⟩ := Chan.close_some heq
      simp only [Option.some.injEq] at h
      subst h
      simp_all [Inv]
      obtain ⟨-, sel, ho, ht, hs, -⟩ := hI
      exact ⟨sel, ho, by simp [ht], hs⟩
    · rename_i heq
      rw [Chan.close_none] at heq
      simp_all [Inv]
  · -- pubRun
    split at h
    · split at h
      · rename_i out heq
        obtain ⟨h1, h2, -⟩ := Chan.send_sent heq
        simp only [Option.some.injEq] at h
        subst h
        simp_all [Inv]
      · simp at h
      · simp only [Option.some.injEq] at h
        subst h
        simp_all [Inv]
    · simp only [Option.some.injEq] at h
      subst h
      simp_all [Inv]
    · simp only [Option.some.injEq] at h
      subst h
      simp_all [Inv]
  · -- hdlSend
    split at h
    · rename_i out heq
      obtain ⟨h1, h2, -⟩ := Chan.send_sent heq
      simp only [Option.some.injEq] at h
      subst h
      simp_all [Inv]
    · simp at h
    · simp only [Option.some.injEq] at h
      subst h
      simp_all [Inv]

theorem Inv_run {bus : CommandBus} {c : Command} {steps : List Step} :
    ∀ {s s' : State}, Inv c s → run bus c s steps = some s' → Inv c s' := by
  induction steps with
  | nil =>
    intro s s' hI h
    simp only [run, Option.some.injEq] at h
    exact h ▸ hI
  | cons st rest ih =>
    intro s s' hI h
    simp only [run] at h
    split at h
    · simp at h
    · rename_i s1 hs
      exact ih (Inv_step hI hs) h

theorem NoHandlerInv_init : NoHandlerInv .init := by
  simp [NoHandlerInv, State.init]

theorem NoHandlerInv_step {bus : CommandBus} {c : Command} {s s' : State} {st : Step}
    (hP : bus c = .deliver .NoHandler) (hI : Inv c s) (hN : NoHandlerInv s)
    (h : step bus c s st = some s') : NoHandlerInv s' := by
  cases st <;> simp only [step, hP] at h <;> split at h <;>
    (try simp only [Option.some.injEq, reduceCtorEq] at h)
  all_goals try (subst h; obtain ⟨n1, n2, n3, n4⟩ := hN; exact ⟨n1, n2, n3, n4⟩)
  · -- origTimeout
    subst h
    obtain ⟨n1, n2, n3, n4⟩ := hN
    refine ⟨n1, n2, n3, ?_⟩
    intro w hw
    simp only [List.mem_append, List.mem_singleton, reduceCtorEq, or_false] at hw
    exact n4 w hw
  · -- origRecv
    rename_i v out hO heq
    obtain ⟨-, -, h3⟩ := Chan.recv_some heq
    have hc : s.out.closed = false := (hI.2.2.2.1 hO).2.2.2
    have hb := h3 hc
    subst h
    obtain ⟨n1, n2, n3, n4⟩ := hN
    refine ⟨n1, n2, ?_, ?_⟩
    · intro w hw
      exact n3 w (by simp [hb, hw])
    · intro w hw
      simp only [List.mem_append, List.mem_singleton, SelectOutcome.recv.injEq] at hw
      rcases hw with hw | hw
      · exact n4 w hw
      · subst hw
        exact n3 w (by simp [hb])
  · -- origReturn
    split at h
    · rename_i out heq
      obtain ⟨-, -, h3⟩ := Chan.close_some heq
      simp only [Option.some.injEq] at h
      subst h
      obtain ⟨n1, n2, n3, n4⟩ := hN
      exact ⟨n1, n2, by simpa [h3] using n3, n4⟩
    · simp only [Option.some.injEq] at h
      subst h
      obtain ⟨n1, n2, n3, n4⟩ := hN
      exact ⟨n1, n2, n3, n4⟩
  · -- pubRun
    split at h
    · rename_i out heq
      obtain ⟨-, -, -, h4⟩ := Chan.send_sent heq
      simp only [Option.some.injEq] at h
      subst h
      obtain ⟨n1, n2, n3, n4⟩ := hN
      refine ⟨n1, n2, ?_, n4⟩
      intro w hw
      simp only [h4, List.mem_append, List.mem_singleton] at hw
      rcases hw with hw | hw
      · exact n3 w hw
      · exact hw
    · simp at h
    · simp only [Option.some.injEq] at h
      subst h
      obtain ⟨n1, n2, n3, n4⟩ := hN
      exact ⟨n1, n2, n3, n4⟩
  · -- hdlSend
    rename_i result hh
    rw [hN.1] at hh
    simp at hh

theorem NoHandlerInv_run {bus : CommandBus} {c : Command} (hP : bus c = .deliver .NoHandler)
    {steps : List Step} :
    ∀ {s s' : State}, Inv c s → NoHandlerInv s → run bus c s steps = some s' →
      NoHandlerInv s' := by
  induction steps with
  | nil =>
    intro s s' _ hN h
    simp only [run, Option.some.injEq] at h
    exact h ▸ hN
  | cons st rest ih =>
    intro s s' hI hN h
    simp only [run] at h
    split at h
    · simp at h
    · rename_i s1 hs
      exact ih (Inv_step hI hs) (NoHandlerInv_step hP hI hN hs) h

theorem late_send_panics {bus : CommandBus} {c : Command} {steps : List Step} {s : State}
    {result : Option GoError} (h : run bus c .init steps = some s) (hret : s.orig = .done)
    (hrun : s.hdl = .running result) :
    (step bus c s .hdlSend).map (·.hdl) = some .panicked := by
  have hI := Inv_run (Inv_init c) h
  have hc : s.out.closed = true := by
    obtain ⟨sel, -, -, -, hc⟩ := hI.2.2.2.2.2 hret
    exact hc
  have hs : s.out.send result = .panicked := Chan.send_panicked.2 hc
  simp [step, hrun, hs]


theorem Publish_no_handler {reg : Registry} {c : Command} (hreg : reg c.name = none) :
    Publish reg c = .deliver .NoHandler := by
  simp [Publish, hreg]

theorem run_successRun :
    run (handlerBus none) sampleCommand .init successRun = some successState := by decide

theorem run_timedOutRun :
    run (handlerBus none) sampleCommand .init timedOutRun = some timedOutState := by decide

theorem run_noHandlerRecvRun :
    run (Publish emptyRegistry) sampleCommand .init noHandlerRecvRun = some noHandlerRecvState := by
  decide

theorem run_noHandlerTimeoutRun :
    run (Publish emptyRegistry) sampleCommand .init noHandlerTimeoutRun = some noHandlerTimeoutState := by
  decide

theorem selectBranch_counts (o : SelectOutcome) :
    errorResponses (selectBranch o) + jsonResponses (selectBranch o) = 1 := by
  rcases o with e | (_ | e) <;> simp [selectBranch, errorResponses, jsonResponses]

theorem selectBranch_writes (o : SelectOutcome) :
    responseWrites (selectBranch o) = selectBranch o := by
  rcases o with e | (_ | e) <;> simp [selectBranch, responseWrites]

theorem dispatch_one_response (r : DispatchRequest) (sel : SelectOutcome) :
    errorResponses (BuildCommandDispatchHandler r sel)
        + jsonResponses (BuildCommandDispatchHandler r sel) = 1 ∧
      (responseWrites (BuildCommandDispatchHandler r sel) = successResponse ∨
        ∃ e, responseWrites (BuildCommandDispatchHandler r sel) = [.MustJSONError e]) := by
  unfold BuildCommandDispatchHandler
  split
  · simp [errorResponses, jsonResponses, responseWrites]
  · split
    · simp [errorResponses, jsonResponses, responseWrites]
    · split
      · simp [errorResponses, jsonResponses, responseWrites]
      · split
        · simp [errorResponses, jsonResponses, responseWrites]
        · rcases sel with e | (_ | e) <;>
            simp [selectBranch, errorResponses, jsonResponses, responseWrites, successResponse]

theorem finish_from_return (bus : CommandBus) (c : Command) (s : State)
    (ho : s.orig = .atReturn) (hc : s.out.closed = false) :
    ∃ s', run bus c s [.origReturn] = some s' ∧ s'.orig = .done := by
  have hcl : s.out.close = some { s.out with closed := true } := by
    simp [Chan.close, hc]
  simp [run, step, ho, hcl]

theorem finish_from_select (bus : CommandBus) (c : Command) (s : State)
    (ho : s.orig = .atSelect) (hc : s.out.closed = false) :
    ∃ steps s', run bus c s steps = some s' ∧ s'.orig = .done := by
  have hcl : s.out.close = some { s.out with closed := true } := by
    simp [Chan.close, hc]
  cases he : s.ctxErr with
  | none =>
    refine ⟨[.cancel DeadlineExceeded, .origTimeout, .origReturn], ?_⟩
    simp [run, step, ho, he, hcl]
  | some e =>
    refine ⟨[.origTimeout, .origReturn], ?_⟩
    simp [run, step, ho, he, hcl]

theorem can_finish (bus : CommandBus) (c : Command) (s : State) (hI : Inv c s) :
    ∃ steps s', run bus c s steps = some s' ∧ s'.orig = .done := by
  obtain ⟨-, hp, h1, h2, h3, h4⟩ := hI
  cases ho : s.orig with
  | atGo =>
    have hc := (h1 ho).2.2.2
    obtain ⟨steps, s', hr, hd⟩ := finish_from_select bus c
      { s with
        orig := .atSelect, pub := .ready, trace := s.trace ++ [.goPublish c],
        spawnedByHandler := s.spawnedByHandler + 1 } rfl hc
    exact ⟨.origGo :: steps, s', by simp [run, step, ho, hr], hd⟩
  | atSelect => exact finish_from_select bus c s ho (h2 ho).2.2.2
  | atReturn =>
    obtain ⟨sel, -, -, -, hc⟩ := h3 ho
    obtain ⟨s', hr, hd⟩ := finish_from_return bus c s ho hc
    exact ⟨_, s', hr, hd⟩
  | done => exact ⟨[], s, rfl, ho⟩
  | panicked => exact absurd ho hp

theorem late_send_panics_sample :
    (step (handlerBus none) sampleCommand timedOutState .hdlSend).map (·.hdl)
      = some .panicked :=
  late_send_panics run_timedOutRun rfl rfl

/-- C3 (the code departs from it): in the run where the bus starts a handler,
the request's deadline passes, the originator takes the timeout branch and
returns (its deferred `close(out)` runs), and only then the handler completes,
the handler's single send on `out` panics instead of being dropped; the
caller's response is the TIMEOUT error. -/
theorem C3_late_send_panics_after_return :
    (run (handlerBus none) sampleCommand .init lateSendRun).map (fun s => (s.hdl, s.out.closed))
        = some (.panicked, true) ∧
      (run (handlerBus none) sampleCommand .init lateSendRun).map (fun s => responseWrites s.trace)
        = some [.MustJSONError (.wrap DeadlineExceeded .TIMEOUT "Request timeout")] ∧
      (run (handlerBus none) sampleCommand .init raceSendRun).map (fun s => (s.hdl, s.out.buf))
        = some (.finished, [none]) := by
  decide

/-- C4: on every path through the handler function (nil body, missing URL
parameters, unreadable body, invalid command, timeout, handler error, handler
success) exactly one response is written, either one error response or the
success response; and in every reachable state of a dispatch, whatever the
bus does, the waiter has observed nothing before its `select` completes and
exactly one outcome (one value from `out` or the cancellation signal, never
both) once it has, with exactly one response written then; the waiter can
always still complete (the cancellation signal remains available), and the
finished originator's trace is the handler function's trace for the outcome
it observed. -/
theorem C4_exactly_one_outcome_and_response (r : DispatchRequest) (sel : SelectOutcome)
    (bus : CommandBus) (c : Command) (steps : List Step) (s : State)
    (h : run bus c .init steps = some s) :
    (errorResponses (BuildCommandDispatchHandler r sel)
        + jsonResponses (BuildCommandDispatchHandler r sel) = 1 ∧
      (responseWrites (BuildCommandDispatchHandler r sel) = successResponse ∨
        ∃ e, responseWrites (BuildCommandDispatchHandler r sel) = [.MustJSONError e])) ∧
    s.observed.length ≤ 1 ∧
    (s.orig = .atGo ∨ s.orig = .atSelect ∨ s.orig = .atReturn ∨ s.orig = .done) ∧
    (s.orig = .atGo ∨ s.orig = .atSelect → s.observed = [] ∧ responseWrites s.trace = []) ∧
    (s.orig = .atReturn ∨ s.orig = .done →
      ∃ o, s.observed = [o] ∧ responseWrites s.trace = selectBranch o ∧
        errorResponses s.trace + jsonResponses s.trace = 1) ∧
    (∃ steps s', run bus c s steps = some s' ∧ s'.orig = .done) ∧
    (s.orig = .done → commandBuilt r c →
      ∃ o, s.observed = [o] ∧ s.trace = BuildCommandDispatchHandler r o) := by
  have hI := Inv_run (Inv_init c) h
  have hfin := can_finish bus c s hI
  obtain ⟨-, hp, h1, h2, h3, h4⟩ := hI
  refine ⟨dispatch_one_response r sel, ?_, ?_, ?_, ?_, hfin, ?_⟩
  · cases ho : s.orig with
    | atGo => simp [(h1 ho).2.1]
    | atSelect => simp [(h2 ho).2.1]
    | atReturn =>
      obtain ⟨o, e, -⟩ := h3 ho
      simp [e]
    | done =>
      obtain ⟨o, e, -⟩ := h4 ho
      simp [e]
    | panicked => exact absurd ho hp
  · cases ho : s.orig <;> simp_all
  · rintro (ho | ho)
    · simp [(h1 ho).1, (h1 ho).2.1, responseWrites]
    · simp [(h2 ho).1, (h2 ho).2.1, responseWrites]
  · rintro (ho | ho)
    · obtain ⟨o, e, ht, -⟩ := h3 ho
      refine ⟨o, e, ?_, ?_⟩
      · rw [ht]
        have := selectBranch_writes o
        simpa [responseWrites] using this
      · rw [ht]
        have := selectBranch_counts o
        simpa [errorResponses, jsonResponses] using this
    · obtain ⟨o, e, ht, -⟩ := h4 ho
      refine ⟨o, e, ?_, ?_⟩
      · rw [ht]
        have := selectBranch_writes o
        simpa [responseWrites] using this
      · rw [ht]
        have := selectBranch_counts o
        simpa [errorResponses, jsonResponses] using this
  · intro ho hb
    obtain ⟨o, e, ht, -⟩ := h4 ho
    exact ⟨o, e, by rw [ht, dispatch_of_built hb]⟩

theorem C4_exactly_one_outcome_and_response_witness :
    run (handlerBus none) sampleCommand .init successRun = some successState ∧
    successState.observed.length ≤ 1 ∧
    (successState.orig = .done → commandBuilt sampleRequest sampleCommand →
      ∃ o, successState.observed = [o] ∧
        successState.trace = BuildCommandDispatchHandler sampleRequest o) :=
  ⟨run_successRun,
    (C4_exactly_one_outcome_and_response sampleRequest (.recv none) (handlerBus none)
      sampleCommand successRun successState run_successRun).2.1,
    (C4_exactly_one_outcome_and_response sampleRequest (.recv none) (handlerBus none)
      sampleCommand successRun successState run_successRun).2.2.2.2.2.2⟩

/-- C7 as stated fails: with no handler registered there is a run of the
dispatch in which a goroutine has been started (line 55) and the caller
observes the cancellation signal, hence Timeout. -/
theorem C7_counterexample :
    ¬ ∀ (reg : Registry) (c : Command) (steps : List Step) (s : State),
        reg c.name = none → run (Publish reg) c .init steps = some s →
          s.spawnedByHandler + s.spawnedByBus = 0 ∧
            ∀ e, SelectOutcome.ctxDone e ∉ s.observed := by
  intro hall
  have h := hall emptyRegistry sampleCommand noHandlerTimeoutRun noHandlerTimeoutState rfl
    run_noHandlerTimeoutRun
  exact absurd h.1 (by decide)

/-- C7 (amended): for a command with no registered handler, in every reachable
state of the dispatch the bus has started no goroutine and no handler runs,
the handler function has started exactly one goroutine (line 55) as soon as
it is past the `go` statement, a value received from `out` is NoHandler and
is answered by the INTERNAL error response wrapping NoHandler, and an
observed cancellation is answered by the TIMEOUT error response. -/
theorem C7_no_handler_dispatch (reg : Registry) (c : Command) (steps : List Step) (s : State)
    (hreg : reg c.name = none) (h : run (Publish reg) c .init steps = some s) :
    s.spawnedByBus = 0 ∧ s.hdl = .notStarted ∧
    (s.orig ≠ .atGo → s.spawnedByHandler = 1) ∧
    (∀ v, SelectOutcome.recv v ∈ s.observed →
      v = some GoError.NoHandler ∧
        responseWrites s.trace
          = [.MustJSONError (.wrap .NoHandler .INTERNAL "Command handler error")]) ∧
    (∀ e, SelectOutcome.ctxDone e ∈ s.observed →
      responseWrites s.trace = [.MustJSONError (.wrap e .TIMEOUT "Request timeout")]) := by
  have hI := Inv_run (Inv_init c) h
  have hN := NoHandlerInv_run (Publish_no_handler hreg) (Inv_init c) NoHandlerInv_init h
  obtain ⟨-, hp, h1, h2, h3, h4⟩ := hI
  obtain ⟨n1, n2, -, n4⟩ := hN
  have hobs : ∀ o, o ∈ s.observed → responseWrites s.trace = selectBranch o := by
    intro o ho
    cases hs : s.orig with
    | atGo => simp [(h1 hs).2.1] at ho
    | atSelect => simp [(h2 hs).2.1] at ho
    | atReturn =>
      obtain ⟨o', e, ht, -⟩ := h3 hs
      simp only [e, List.mem_singleton] at ho
      subst ho
      rw [ht]
      simpa [responseWrites] using selectBranch_writes o
    | done =>
      obtain ⟨o', e, ht, -⟩ := h4 hs
      simp only [e, List.mem_singleton] at ho
      subst ho
      rw [ht]
      simpa [responseWrites] using selectBranch_writes o
    | panicked => exact absurd hs hp
  refine ⟨n2, n1, ?_, ?_, ?_⟩
  · intro hne
    cases hs : s.orig with
    | atGo => exact absurd hs hne
    | atSelect => exact (h2 hs).2.2.1
    | atReturn =>
      obtain ⟨o', -, -, hsp, -⟩ := h3 hs
      exact hsp
    | done =>
      obtain ⟨o', -, -, hsp, -⟩ := h4 hs
      exact hsp
    | panicked => exact absurd hs hp
  · intro v hv
    have hv' := n4 v hv
    subst hv'
    exact ⟨rfl, by rw [hobs _ hv]; rfl⟩
  · intro e he
    rw [hobs _ he]
    rfl

theorem C7_no_handler_dispatch_witness :
    emptyRegistry sampleCommand.name = none ∧
    run (Publish emptyRegistry) sampleCommand .init noHandlerRecvRun = some noHandlerRecvState ∧
    noHandlerRecvState.spawnedByBus = 0 ∧
    (noHandlerRecvState.orig ≠ .atGo → noHandlerRecvState.spawnedByHandler = 1) :=
  ⟨rfl, run_noHandlerRecvRun,
    (C7_no_handler_dispatch emptyRegistry sampleCommand noHandlerRecvRun noHandlerRecvState rfl
      run_noHandlerRecvRun).1,
    (C7_no_handler_dispatch emptyRegistry sampleCommand noHandlerRecvRun noHandlerRecvState rfl
      run_noHandlerRecvRun).2.2.1⟩

theorem recoverEventHandler_panic (p : Option PanicValue) : (recoverEventHandler p).panic = none := by
  cases p <;> rfl

theorem recoverEventHandler_trace (p : Option PanicValue) :
    errorLogs (recoverEventHandler p).trace = 0 ∧
      tokenRequests (recoverEventHandler p).trace = 0 ∧
      tokensEmitted (recoverEventHandler p).trace = 0 ∧
      (∀ x, x ∈ (recoverEventHandler p).trace → ∃ v, x = .Recovered v) := by
  cases p <;> simp [recoverEventHandler, errorLogs, tokenRequests, tokensEmitted]

/-- C5: for every behaviour of the collaborators (each of logger lookup,
logging, payload decoding, token request, token encoding and printing may
panic), every secret and every event, no panic propagates out of an
invocation of the handler: a panic that ends the body is taken up by the
deferred `recoverEventHandler` and the invocation returns normally. -/
theorem C5_no_panic_propagates (k : Collaborators) (secretKey : String) (event : Event) :
    (WhenUserAccessTokenWasRequested k secretKey event).propagated = none ∧
    ∀ v, (handlerBody k secretKey event).panic = some v →
      (WhenUserAccessTokenWasRequested k secretKey event).trace
        = (handlerBody k secretKey event).trace ++ [.Recovered v] := by
  refine ⟨recoverEventHandler_panic _, ?_⟩
  intro v hv
  simp [WhenUserAccessTokenWasRequested, hv, recoverEventHandler]

theorem C5_no_panic_propagates_witness :
    (handlerBody panickingCollaborators "secret" ⟨[123, 125]⟩).panic = some "nil logger" ∧
    (WhenUserAccessTokenWasRequested panickingCollaborators "secret" ⟨[123, 125]⟩).propagated
      = none ∧
    (WhenUserAccessTokenWasRequested panickingCollaborators "secret" ⟨[123, 125]⟩).trace
      = (handlerBody panickingCollaborators "secret" ⟨[123, 125]⟩).trace
          ++ [.Recovered "nil logger"] :=
  ⟨by decide,
    (C5_no_panic_propagates panickingCollaborators "secret" ⟨[123, 125]⟩).1,
    (C5_no_panic_propagates panickingCollaborators "secret" ⟨[123, 125]⟩).2 "nil logger"
      (by decide)⟩

theorem body_decode_failed (k : Collaborators) (secretKey : String) (event : Event)
    (err : GoError) (hreach : Ev.Unmarshal event.Payload ∈ (handlerBody k secretKey event).trace)
    (hfail : k.Unmarshal event.Payload = .ret (.error err)) :
    (handlerBody k secretKey event).trace
      = [.Info event.Payload, .Unmarshal event.Payload, .Error err] := by
  unfold handlerBody at hreach ⊢
  cases h1 : k.GetLogger with
  | panic v => simp [h1] at hreach
  | ret _ =>
    cases h2 : k.Info event.Payload with
    | panic v => simp [h1, h2] at hreach
    | ret _ =>
      simp only [hfail, logErrorAndReturn]
      cases k.Error err <;> simp

theorem body_token_failed (k : Collaborators) (secretKey : String) (event : Event)
    (e : WasRegisteredWithEmail) (err : GoError)
    (hdec : k.Unmarshal event.Payload = .ret (.ok e))
    (hreach : Ev.PasswordCredentialsToken e.Email secretKey
      ∈ (handlerBody k secretKey event).trace)
    (hfail : k.PasswordCredentialsToken e.Email secretKey = .ret (.error err)) :
    (handlerBody k secretKey event).trace
      = [.Info event.Payload, .Unmarshal event.Payload,
          .PasswordCredentialsToken e.Email secretKey, .Error err] := by
  unfold handlerBody at hreach ⊢
  cases h1 : k.GetLogger with
  | panic v => simp [h1] at hreach
  | ret _ =>
    cases h2 : k.Info event.Payload with
    | panic v => simp [h1, h2] at hreach
    | ret _ =>
      simp only [hdec, hfail, logErrorAndReturn]
      cases k.Error err <;> simp

theorem body_marshal_failed (k : Collaborators) (secretKey : String) (event : Event)
    (e : WasRegisteredWithEmail) (token : Token) (err : GoError)
    (hdec : k.Unmarshal event.Payload = .ret (.ok e))
    (htok : k.PasswordCredentialsToken e.Email secretKey = .ret (.ok token))
    (hreach : Ev.Marshal token ∈ (handlerBody k secretKey event).trace)
    (hfail : k.Marshal token = .ret (.error err)) :
    (handlerBody k secretKey event).trace
      = [.Info event.Payload, .Unmarshal event.Payload,
          .PasswordCredentialsToken e.Email secretKey, .Marshal token, .Error err] := by
  unfold handlerBody at hreach ⊢
  cases h1 : k.GetLogger with
  | panic v => simp [h1] at hreach
  | ret _ =>
    cases h2 : k.Info event.Payload with
    | panic v => simp [h1, h2] at hreach
    | ret _ =>
      simp only [hdec, htok, hfail, logErrorAndReturn]
      cases k.Error err <;> simp

theorem body_token_emitted (k : Collaborators) (secretKey : String) (event : Event) (b : Bytes)
    (h : Ev.AccessToken b ∈ (handlerBody k secretKey event).trace) :
    ∃ e token, k.Unmarshal event.Payload = .ret (.ok e) ∧
      k.PasswordCredentialsToken e.Email secretKey = .ret (.ok token) ∧
      k.Marshal token = .ret (.ok b) ∧
      (handlerBody k secretKey event).trace
        = [.Info event.Payload, .Unmarshal event.Payload,
            .PasswordCredentialsToken e.Email secretKey, .Marshal token, .AccessToken b] := by
  unfold handlerBody at h ⊢
  cases h1 : k.GetLogger with
  | panic v => simp [h1] at h
  | ret _ =>
    cases h2 : k.Info event.Payload with
    | panic v => simp [h1, h2] at h
    | ret _ =>
      cases h3 : k.Unmarshal event.Payload with
      | panic v => simp [h1, h2, h3] at h
      | ret r3 =>
        cases r3 with
        | error err =>
          simp only [h1, h2, h3, logErrorAndReturn] at h
          cases h5 : k.Error err <;> simp [h5] at h
        | ok e =>
          cases h4 : k.PasswordCredentialsToken e.Email secretKey with
          | panic v => simp [h1, h2, h3, h4] at h
          | ret r4 =>
            cases r4 with
            | error err =>
              simp only [h1, h2, h3, h4, logErrorAndReturn] at h
              cases h5 : k.Error err <;> simp [h5] at h
            | ok token =>
              cases h6 : k.Marshal token with
              | panic v => simp [h1, h2, h3, h4, h6] at h
              | ret r6 =>
                cases r6 with
                | error err =>
                  simp only [h1, h2, h3, h4, h6, logErrorAndReturn] at h
                  cases h5 : k.Error err <;> simp [h5] at h
                | ok b' =>
                  simp only [h1, h2, h3, h4, h6] at h
                  have hb : b = b' := by
                    cases h7 : k.Printf b' <;> simp [h7] at h <;> exact h
                  subst hb
                  refine ⟨e, token, rfl, h4, h6, ?_⟩
                  cases h7 : k.Printf b <;> simp [h4, h6, h7]

theorem invocation_counts (k : Collaborators) (secretKey : String) (event : Event) :
    errorLogs (WhenUserAccessTokenWasRequested k secretKey event).trace
        = errorLogs (handlerBody k secretKey event).trace ∧
      tokenRequests (WhenUserAccessTokenWasRequested k secretKey event).trace
        = tokenRequests (handlerBody k secretKey event).trace ∧
      tokensEmitted (WhenUserAccessTokenWasRequested k secretKey event).trace
        = tokensEmitted (handlerBody k secretKey event).trace := by
  obtain ⟨h1, h2, h3, -⟩ := recoverEventHandler_trace (handlerBody k secretKey event).panic
  simp only [errorLogs, tokenRequests, tokensEmitted] at h1 h2 h3
  simp [WhenUserAccessTokenWasRequested, errorLogs, tokenRequests, tokensEmitted,
    List.countP_append, h1, h2, h3]

theorem invocation_mem_body (k : Collaborators) (secretKey : String) (event : Event) (x : Ev)
    (hx : ∀ v, x ≠ .Recovered v)
    (h : x ∈ (WhenUserAccessTokenWasRequested k secretKey event).trace) :
    x ∈ (handlerBody k secretKey event).trace := by
  simp only [WhenUserAccessTokenWasRequested, List.mem_append] at h
  rcases h with h | h
  · exact h
  · obtain ⟨v, hv⟩ := (recoverEventHandler_trace _).2.2.2 x h
    exact absurd hv (hx v)

/-- C6: for every behaviour of the collaborators, every secret and every
event, with the calls of an invocation recorded in its trace: if the payload
is decoded and decoding fails, exactly one error is logged, no token is
requested and no access token is emitted; if decoding succeeds and the token
request is made and fails, or the token is encoded and encoding fails,
exactly one error is logged and no access token is emitted; an access token
is emitted only when decoding, token request and encoding all succeeded, and
then at most once and with no error logged; and the invocation always ends
by returning, with nothing propagated (the Go function has no results). -/
theorem C6_log_and_drop (k : Collaborators) (secretKey : String) (event : Event) :
    (∀ err, Ev.Unmarshal event.Payload ∈ (WhenUserAccessTokenWasRequested k secretKey event).trace →
      k.Unmarshal event.Payload = .ret (.error err) →
      errorLogs (WhenUserAccessTokenWasRequested k secretKey event).trace = 1 ∧
        tokenRequests (WhenUserAccessTokenWasRequested k secretKey event).trace = 0 ∧
        tokensEmitted (WhenUserAccessTokenWasRequested k secretKey event).trace = 0) ∧
    (∀ e err, k.Unmarshal event.Payload = .ret (.ok e) →
      Ev.PasswordCredentialsToken e.Email secretKey
        ∈ (WhenUserAccessTokenWasRequested k secretKey event).trace →
      k.PasswordCredentialsToken e.Email secretKey = .ret (.error err) →
      errorLogs (WhenUserAccessTokenWasRequested k secretKey event).trace = 1 ∧
        tokensEmitted (WhenUserAccessTokenWasRequested k secretKey event).trace = 0) ∧
    (∀ e token err, k.Unmarshal event.Payload = .ret (.ok e) →
      k.PasswordCredentialsToken e.Email secretKey = .ret (.ok token) →
      Ev.Marshal token ∈ (WhenUserAccessTokenWasRequested k secretKey event).trace →
      k.Marshal token = .ret (.error err) →
      errorLogs (WhenUserAccessTokenWasRequested k secretKey event).trace = 1 ∧
        tokensEmitted (WhenUserAccessTokenWasRequested k secretKey event).trace = 0) ∧
    (∀ b, Ev.AccessToken b ∈ (WhenUserAccessTokenWasRequested k secretKey event).trace →
      (∃ e token, k.Unmarshal event.Payload = .ret (.ok e) ∧
        k.PasswordCredentialsToken e.Email secretKey = .ret (.ok token) ∧
        k.Marshal token = .ret (.ok b)) ∧
      tokensEmitted (WhenUserAccessTokenWasRequested k secretKey event).trace = 1 ∧
      errorLogs (WhenUserAccessTokenWasRequested k secretKey event).trace = 0) ∧
    (WhenUserAccessTokenWasRequested k secretKey event).propagated = none := by
  obtain ⟨c1, c2, c3⟩ := invocation_counts k secretKey event
  refine ⟨?_, ?_, ?_, ?_, recoverEventHandler_panic _⟩
  · intro err hreach hfail
    have hb := body_decode_failed k secretKey event err
      (invocation_mem_body k secretKey event _ (by simp) hreach) hfail
    rw [c1, c2, c3, hb]
    simp [errorLogs, tokenRequests, tokensEmitted]
  · intro e err hdec hreach hfail
    have hb := body_token_failed k secretKey event e err hdec
      (invocation_mem_body k secretKey event _ (by simp) hreach) hfail
    rw [c1, c3, hb]
    simp [errorLogs, tokensEmitted]
  · intro e token err hdec htok hreach hfail
    have hb := body_marshal_failed k secretKey event e token err hdec htok
      (invocation_mem_body k secretKey event _ (by simp) hreach) hfail
    rw [c1, c3, hb]
    simp [errorLogs, tokensEmitted]
  · intro b hmem
    obtain ⟨e, token, h1, h2, h3, hb⟩ := body_token_emitted k secretKey event b
      (invocation_mem_body k secretKey event _ (by simp) hmem)
    refine ⟨⟨e, token, h1, h2, h3⟩, ?_, ?_⟩
    · rw [c3, hb]
      simp [tokensEmitted]
    · rw [c1, hb]
      simp [errorLogs]

theorem C6_log_and_drop_witness :
    Ev.Unmarshal [1] ∈
        (WhenUserAccessTokenWasRequested (sampleCollaborators true true) "secret" ⟨[1]⟩).trace ∧
    (sampleCollaborators true true).Unmarshal [1] = .ret (.error (.ext 10)) ∧
    errorLogs (WhenUserAccessTokenWasRequested (sampleCollaborators true true) "secret" ⟨[1]⟩).trace
      = 1 ∧
    tokenRequests
        (WhenUserAccessTokenWasRequested (sampleCollaborators true true) "secret" ⟨[1]⟩).trace
      = 0 ∧
    tokensEmitted
        (WhenUserAccessTokenWasRequested (sampleCollaborators true true) "secret" ⟨[1]⟩).trace
      = 0 :=
  ⟨by decide, rfl,
    (C6_log_and_drop (sampleCollaborators true true) "secret" ⟨[1]⟩).1 (.ext 10)
      (by decide) rfl⟩

theorem wrap32_of_isInt32 {n : Int} (h : isInt32 n) : wrap32 n = n := by
  unfold isInt32 at h
  unfold wrap32
  omega

theorem isInt32_wrap32 (n : Int) : isInt32 (wrap32 n) := by
  unfold isInt32 wrap32
  omega

theorem float64OfInt_of_isInt32 {n : Int} (h : isInt32 n) : float64OfInt n = n := by
  unfold isInt32 at h
  have hlt : n.natAbs < 2 ^ 53 := by omega
  unfold float64OfInt
  simp only [hlt, if_true]

theorem ParseInt32_cases (s : String) :
    ((ParseInt32 s).2 = some .errSyn → (ParseInt32 s).1 = 0) ∧ isInt32 (ParseInt32 s).1 := by
  unfold ParseInt32
  cases s.toList with
  | nil => simp [isInt32]
  | cons c0 tl =>
    dsimp only
    generalize ParseUint32 (if c0 = '+' ∨ c0 = '-' then tl else c0 :: tl) = pu
    obtain ⟨un, e⟩ := pu
    have key : ∀ (b : Prop) [Decidable b],
        ((if ¬ b ∧ un ≥ 2 ^ 31 then (((2 ^ 31 : Nat) : Int) - 1, some NumError.errRange)
          else if b ∧ un > 2 ^ 31 then (-((2 ^ 31 : Nat) : Int), some NumError.errRange)
          else (if b then -(un : Int) else (un : Int), none)).2 = some NumError.errSyn →
          (if ¬ b ∧ un ≥ 2 ^ 31 then (((2 ^ 31 : Nat) : Int) - 1, some NumError.errRange)
          else if b ∧ un > 2 ^ 31 then (-((2 ^ 31 : Nat) : Int), some NumError.errRange)
          else (if b then -(un : Int) else (un : Int), none)).1 = 0) ∧
        isInt32 (if ¬ b ∧ un ≥ 2 ^ 31 then (((2 ^ 31 : Nat) : Int) - 1, some NumError.errRange)
          else if b ∧ un > 2 ^ 31 then (-((2 ^ 31 : Nat) : Int), some NumError.errRange)
          else (if b then -(un : Int) else (un : Int), none)).1 := by
      intro b _
      unfold isInt32
      split_ifs with h1 h2 h3 <;> (try simp)
      · have : un ≤ 2 ^ 31 := by
          by_contra hc
          exact h2 ⟨h3, by omega⟩
        omega
      · have : un < 2 ^ 31 := by
          by_contra hc
          exact h1 ⟨h3, by omega⟩
        omega
    cases e with
    | none => exact key (c0 = '-')
    | some e =>
      cases e with
      | errSyn => simp [isInt32]
      | errRange => exact key (c0 = '-')

theorem ParseInt32_isInt32 (s : String) : isInt32 (ParseInt32 s).1 := (ParseInt32_cases s).2

theorem ParseInt32_errSyn (s : String) (h : (ParseInt32 s).2 = some .errSyn) :
    (ParseInt32 s).1 = 0 := (ParseInt32_cases s).1 h

theorem effectivePage_eq (s : String) : effectivePage s = max (ParseInt32 s).1 1 := by
  have h := ParseInt32_isInt32 s
  unfold effectivePage int32OfFloat
  rw [float64OfInt_of_isInt32 h]
  apply wrap32_of_isInt32
  unfold isInt32 at h ⊢
  omega

theorem effectiveLimit_eq (s : String) : effectiveLimit s = max (ParseInt32 s).1 20 := by
  have h := ParseInt32_isInt32 s
  unfold effectiveLimit int32OfFloat
  rw [float64OfInt_of_isInt32 h]
  apply wrap32_of_isInt32
  unfold isInt32 at h ⊢
  omega

theorem listOffset_exact {page limit : Int} (h : isInt32 ((page - 1) * limit)) :
    listOffset page limit = (page - 1) * limit := by
  have e : (page - 1) * limit = page * limit - limit := by ring
  rw [e] at h ⊢
  unfold isInt32 at h
  unfold listOffset wrap32
  generalize page * limit = a at h ⊢
  omega

theorem ParseInt32_examples :
    ParseInt32 "" = (0, some .errSyn) ∧
    ParseInt32 "-" = (0, some .errSyn) ∧
    ParseInt32 "12a" = (0, some .errSyn) ∧
    ParseInt32 "+12" = (12, none) ∧
    ParseInt32 "-2147483648" = (-2147483648, none) ∧
    ParseInt32 "2147483648" = (2147483647, some .errRange) ∧
    ParseInt32 "-2147483649" = (-2147483648, some .errRange) ∧
    ParseInt32 "99999999999x" = (2147483647, some .errRange) := by
  decide

theorem ParseUintLoop_spec (cutoff maxVal : Nat) (l : List Char) :
    ∀ n, ((ParseUintLoop cutoff maxVal l n).2 = none → l.all isDecimalDigit = true) ∧
      ((ParseUintLoop cutoff maxVal l n).2 = some .errRange →
        (ParseUintLoop cutoff maxVal l n).1 = maxVal) := by
  induction l with
  | nil =>
    intro n
    simp [ParseUintLoop]
  | cons ch rest ih =>
    intro n
    unfold ParseUintLoop
    by_cases hd : 48 ≤ ch.toNat ∧ ch.toNat ≤ 57
    · simp only [hd, and_self, if_true]
      by_cases hc : n ≥ cutoff
      · simp [hc]
      · simp only [hc, if_false]
        split_ifs with ho
        · simp
        · obtain ⟨i1, i2⟩ := ih ((n * 10 % 2 ^ 64 + (ch.toNat - 48)) % 2 ^ 64)
          refine ⟨?_, i2⟩
          intro h
          simp [List.all_cons, isDecimalDigit, hd, i1 h]
    · simp [hd]

theorem ParseUint32_spec (l : List Char) :
    ((ParseUint32 l).2 = none → l ≠ [] ∧ l.all isDecimalDigit = true) ∧
      ((ParseUint32 l).2 = some .errRange → (ParseUint32 l).1 = 2 ^ 32 - 1) := by
  cases l with
  | nil => simp [ParseUint32]
  | cons ch rest =>
    obtain ⟨h1, h2⟩ := ParseUintLoop_spec (maxUint64 / 10 + 1) (2 ^ 32 - 1) (ch :: rest) 0
    simp only [ParseUint32]
    exact ⟨fun h => ⟨by simp, h1 h⟩, h2⟩

theorem ParseInt32_error_kinds (s : String) :
    ((ParseInt32 s).2 = none → wellFormedDecimal s = true) ∧
      ((ParseInt32 s).2 = some .errRange →
        (ParseInt32 s).1 = 2147483647 ∨ (ParseInt32 s).1 = -2147483648) := by
  unfold ParseInt32 wellFormedDecimal
  cases s.toList with
  | nil => simp
  | cons c0 tl =>
    dsimp only
    obtain ⟨u1, u2⟩ := ParseUint32_spec (if c0 = '+' ∨ c0 = '-' then tl else c0 :: tl)
    generalize ParseUint32 (if c0 = '+' ∨ c0 = '-' then tl else c0 :: tl) = pu at u1 u2
    obtain ⟨un, e⟩ := pu
    cases e with
    | none =>
      obtain ⟨hne, hall⟩ := u1 rfl
      refine ⟨fun _ => ?_, ?_⟩
      · cases hdig : (if c0 = '+' ∨ c0 = '-' then tl else c0 :: tl) with
        | nil => exact absurd hdig hne
        | cons a b =>
          rw [hdig] at hall
          simp only [List.isEmpty_cons, Bool.not_false, Bool.true_and]
          exact hall
      · dsimp only
        split_ifs <;> simp
    | some e =>
      cases e with
      | errSyn => simp
      | errRange =>
        have hun : un = 2 ^ 32 - 1 := u2 rfl
        subst hun
        dsimp only
        by_cases hneg : c0 = '-' <;> simp [hneg]

theorem malformed_parse (s : String) (h : wellFormedDecimal s = false) :
    ((ParseInt32 s).2 = some .errSyn ∧ (ParseInt32 s).1 = 0) ∨
      ((ParseInt32 s).2 = some .errRange ∧
        ((ParseInt32 s).1 = 2147483647 ∨ (ParseInt32 s).1 = -2147483648)) := by
  obtain ⟨k1, k2⟩ := ParseInt32_error_kinds s
  cases he : (ParseInt32 s).2 with
  | none =>
    rw [k1 he] at h
    exact absurd h (by simp)
  | some e =>
    cases e with
    | errSyn => exact Or.inl ⟨rfl, ParseInt32_errSyn s he⟩
    | errRange => exact Or.inr ⟨rfl, k2 he⟩

/-- C8 (the code departs from it): for the query `page=2147483647` with no
`limit` and one stored user, the clamped page is 2147483647 and the limit 20,
the exact offset `(page-1)*limit` is 42949672920, the `int32` computation
`page*limit - limit` wraps around to -40, the guard `offset > total-1` does
not fire, and `repository.FindAll` is called with the negative offset -40. -/
theorem C8_offset_wraps_at_failing_input :
    effectivePage overflowRequest.page = 2147483647 ∧
    effectiveLimit overflowRequest.limit = 20 ∧
    (effectivePage overflowRequest.page - 1) * effectiveLimit overflowRequest.limit
      = 42949672920 ∧
    listOffset (effectivePage overflowRequest.page) (effectiveLimit overflowRequest.limit)
      = -40 ∧
    findAllCalls (BuildListUserHandler (sampleRepository 1) overflowRequest) = [(20, -40)] := by
  decide

/-- C9 as stated fails: the query value `99999999999x` is neither missing nor
a well-formed decimal integer, yet `strconv.ParseInt` reports it as out of
range (the digits read before the `x` already exceed the range) and returns
2147483647, not 0, so the effective page is 2147483647 and not `max 0 1`. -/
theorem C9_counterexample :
    ¬ ∀ s : String, wellFormedDecimal s = false →
        (ParseInt32 s).1 = 0 ∧ effectivePage s = max 0 1 := by
  intro hall
  have h := hall "99999999999x" (by decide)
  exact absurd h.1 (by decide)

/-- C9 (amended): for every request with a non-nil body, with `p` and `l` the
`strconv.ParseInt(_, 10, 32)` values of the `page` and `limit` query values:
both are `int32`; they are 0 when the value is missing and whenever the parse
reports a syntax error; a value that is not a well-formed decimal integer
never parses without error, giving 0 on a syntax error and the `int32` bound
2147483647 or -2147483648 on a range error; the effective page is `max p 1`
and the effective limit is `max l 20`; so page is at least 1 and limit at
least 20, a limit below 20 becomes 20, a limit above 20 is kept; the passage
through `float64` is exact on every `int32`; and every paginated list the
handler writes reports exactly this page and this limit. -/
theorem C9_effective_page_and_limit (repository : UserRepository) (r : ListRequest)
    (hbody : r.bodyNil = false) :
    (isInt32 (ParseInt32 r.page).1 ∧ isInt32 (ParseInt32 r.limit).1) ∧
    ((ParseInt32 "").1 = 0 ∧
      ((ParseInt32 r.page).2 = some .errSyn → (ParseInt32 r.page).1 = 0) ∧
      ((ParseInt32 r.limit).2 = some .errSyn → (ParseInt32 r.limit).1 = 0)) ∧
    (effectivePage r.page = max (ParseInt32 r.page).1 1 ∧
      effectiveLimit r.limit = max (ParseInt32 r.limit).1 20) ∧
    (1 ≤ effectivePage r.page ∧ 20 ≤ effectiveLimit r.limit) ∧
    ((ParseInt32 r.limit).1 < 20 → effectiveLimit r.limit = 20) ∧
    ((ParseInt32 r.limit).1 > 20 → effectiveLimit r.limit = (ParseInt32 r.limit).1) ∧
    (∀ n, isInt32 n → int32OfFloat (float64OfInt n) = n) ∧
    (∀ pl ∈ listsWritten (BuildListUserHandler repository r),
      pl.Page = max (ParseInt32 r.page).1 1 ∧ pl.Limit = max (ParseInt32 r.limit).1 20) ∧
    (∀ s, s = r.page ∨ s = r.limit → wellFormedDecimal s = false →
      ((ParseInt32 s).2 = some .errSyn ∧ (ParseInt32 s).1 = 0) ∨
        ((ParseInt32 s).2 = some .errRange ∧
          ((ParseInt32 s).1 = 2147483647 ∨ (ParseInt32 s).1 = -2147483648))) := by
  have hp := effectivePage_eq r.page
  have hl := effectiveLimit_eq r.limit
  refine ⟨⟨ParseInt32_isInt32 _, ParseInt32_isInt32 _⟩,
    ⟨by decide, ParseInt32_errSyn _, ParseInt32_errSyn _⟩, ⟨hp, hl⟩, ?_, ?_, ?_, ?_, ?_,
    fun s _ hs => malformed_parse s hs⟩
  · rw [hp, hl]
    exact ⟨le_max_right _ _, le_max_right _ _⟩
  · intro h
    rw [hl]
    omega
  · intro h
    rw [hl]
    omega
  · intro n hn
    unfold int32OfFloat
    rw [float64OfInt_of_isInt32 hn, wrap32_of_isInt32 hn]
  · intro pl hmem
    rw [← hp, ← hl]
    unfold BuildListUserHandler at hmem
    simp only [hbody, Bool.false_eq_true, if_false] at hmem
    cases hc : repository.Count with
    | error e => simp [hc, listsWritten] at hmem
    | ok total =>
      simp only [hc] at hmem
      split_ifs at hmem
      · simp only [listsWritten, List.filterMap_cons, List.filterMap_nil,
          List.mem_singleton] at hmem
        subst hmem
        exact ⟨rfl, rfl⟩
      · cases hf : repository.FindAll (effectiveLimit r.limit)
            (listOffset (effectivePage r.page) (effectiveLimit r.limit)) with
        | error e => simp [hf, listsWritten] at hmem
        | ok users =>
          simp only [hf, listsWritten, List.filterMap_cons, List.filterMap_nil,
            List.mem_singleton] at hmem
          subst hmem
          exact ⟨rfl, rfl⟩

theorem C9_effective_page_and_limit_witness :
    (⟨false, "99999999999x", "7"⟩ : ListRequest).bodyNil = false ∧
    wellFormedDecimal "99999999999x" = false ∧
    effectivePage "99999999999x" = max (ParseInt32 "99999999999x").1 1 ∧
    effectiveLimit "7" = max (ParseInt32 "7").1 20 ∧
    (((ParseInt32 "99999999999x").2 = some .errSyn ∧ (ParseInt32 "99999999999x").1 = 0) ∨
      ((ParseInt32 "99999999999x").2 = some .errRange ∧
        ((ParseInt32 "99999999999x").1 = 2147483647 ∨
          (ParseInt32 "99999999999x").1 = -2147483648))) ∧
    listsWritten (BuildListUserHandler (sampleRepository 100) ⟨false, "3", "7"⟩)
      = [⟨some [⟨1⟩], 3, 20, 100⟩] :=
  ⟨rfl, by decide,
    (C9_effective_page_and_limit (sampleRepository 100) ⟨false, "99999999999x", "7"⟩
      rfl).2.2.1.1,
    (C9_effective_page_and_limit (sampleRepository 100) ⟨false, "99999999999x", "7"⟩
      rfl).2.2.1.2,
    (C9_effective_page_and_limit (sampleRepository 100) ⟨false, "99999999999x", "7"⟩
      rfl).2.2.2.2.2.2.2.2 "99999999999x" (Or.inl rfl) (by decide),
    by decide⟩

/-- The list handler's responses in terms of the offset it computes: the
`Count` failure, the early 200 response without `FindAll` when `total < 1`
or the computed offset exceeds `total-1`, and otherwise exactly one
`FindAll(limit, offset)` with the 200 response carrying its users or the
INTERNAL error response. -/
theorem list_response_computed_offset (repository : UserRepository) (r : ListRequest)
    (hbody : r.bodyNil = false) :
    (∀ e, repository.Count = .error e →
      BuildListUserHandler repository r
        = [.Count, .MustJSONError (.new .INTERNAL "Internal Server Error")]) ∧
    (∀ total, repository.Count = .ok total → isInt32 total →
      ((total < 1 ∨ listOffset (effectivePage r.page) (effectiveLimit r.limit) > total - 1) →
        BuildListUserHandler repository r
          = [.Count, .WriteHeader 200,
              .MustJSON (.list ⟨none, effectivePage r.page, effectiveLimit r.limit, total⟩)]) ∧
      (¬ (total < 1 ∨ listOffset (effectivePage r.page) (effectiveLimit r.limit) > total - 1) →
        findAllCalls (BuildListUserHandler repository r)
          = [(effectiveLimit r.limit,
              listOffset (effectivePage r.page) (effectiveLimit r.limit))] ∧
        (∀ users,
          repository.FindAll (effectiveLimit r.limit)
              (listOffset (effectivePage r.page) (effectiveLimit r.limit)) = .ok users →
          BuildListUserHandler repository r
            = [.Count,
                .FindAll (effectiveLimit r.limit)
                  (listOffset (effectivePage r.page) (effectiveLimit r.limit)),
                .WriteHeader 200,
                .MustJSON (.list
                  ⟨some users, effectivePage r.page, effectiveLimit r.limit, total⟩)]) ∧
        (∀ e,
          repository.FindAll (effectiveLimit r.limit)
              (listOffset (effectivePage r.page) (effectiveLimit r.limit)) = .error e →
          BuildListUserHandler repository r
            = [.Count,
                .FindAll (effectiveLimit r.limit)
                  (listOffset (effectivePage r.page) (effectiveLimit r.limit)),
                .MustJSONError (.new .INTERNAL "Internal Server Error")]))) := by
  refine ⟨?_, ?_⟩
  · intro e he
    simp [BuildListUserHandler, hbody, he, StatusTextInternalServerError]
  · intro total ht hint
    have hw : total < 1 ∨ wrap32 (total - 1) = total - 1 := by
      by_cases h1 : total < 1
      · exact Or.inl h1
      · right
        apply wrap32_of_isInt32
        unfold isInt32 at hint ⊢
        omega
    have hcond : (total < 1 ∨
        listOffset (effectivePage r.page) (effectiveLimit r.limit) > wrap32 (total - 1)) ↔
        (total < 1 ∨
          listOffset (effectivePage r.page) (effectiveLimit r.limit) > total - 1) := by
      rcases hw with h | h
      · simp [h]
      · rw [h]
    refine ⟨?_, ?_⟩
    · intro hc
      simp [BuildListUserHandler, hbody, ht, hcond, hc, StatusOK]
    · intro hc
      refine ⟨?_, ?_, ?_⟩
      · simp only [BuildListUserHandler, hbody, ht, hcond, hc, Bool.false_eq_true, if_false]
        split <;> simp [findAllCalls]
      · intro users hu
        simp [BuildListUserHandler, hbody, ht, hcond, hc, hu, StatusOK]
      · intro e he
        simp [BuildListUserHandler, hbody, ht, hcond, hc, he, StatusTextInternalServerError]

theorem list_response_exact_offset (repository : UserRepository) (r : ListRequest)
    (hbody : r.bodyNil = false) (total : Int) (ht : repository.Count = .ok total)
    (hint : isInt32 total)
    (hfit : isInt32 ((effectivePage r.page - 1) * effectiveLimit r.limit))
    (hpast : total < 1 ∨ (effectivePage r.page - 1) * effectiveLimit r.limit > total - 1) :
    findAllCalls (BuildListUserHandler repository r) = [] := by
  rw [← listOffset_exact hfit] at hpast
  rw [((list_response_computed_offset repository r hbody).2 total ht hint).1 hpast]
  rfl

/-- C10 (the code departs from it): for the query `page=65537&limit=65536`
and five stored users the requested page lies past the last user (the exact
offset `(page-1)*limit` is 4294967296, above `total-1 = 4`), but the `int32`
computation `page*limit - limit` wraps around to 0, the guard
`offset > total-1` does not fire, `repository.FindAll` is called with
(65536, 0) and the 200 response carries the users it returned instead of an
absent list. -/
theorem C10_find_all_called_past_last_page :
    effectivePage pastLastPageRequest.page = 65537 ∧
    effectiveLimit pastLastPageRequest.limit = 65536 ∧
    (effectivePage pastLastPageRequest.page - 1) * effectiveLimit pastLastPageRequest.limit
      = 4294967296 ∧
    (effectivePage pastLastPageRequest.page - 1) * effectiveLimit pastLastPageRequest.limit
      > 5 - 1 ∧
    listOffset (effectivePage pastLastPageRequest.page)
      (effectiveLimit pastLastPageRequest.limit) = 0 ∧
    findAllCalls (BuildListUserHandler (sampleRepository 5) pastLastPageRequest)
      = [(65536, 0)] ∧
    BuildListUserHandler (sampleRepository 5) pastLastPageRequest
      = [.Count, .FindAll 65536 0, .WriteHeader 200,
          .MustJSON (.list ⟨some [⟨1⟩], 65537, 65536, 5⟩)] := by
  decide

end GoApi
